import Mathlib

set_option maxRecDepth 8192
/-!
Shallow embedding of the Bulk Record Enumeration & Deletion Engine of
`deleter/core.py`: the filtered search enumerator with keyset resumption
(`_search_records` / `_process_search_batch`), the full list enumerator
(`_get_all_records_by_type`), the batch deleter with per-record fallback
(`_delete_records`), and the orchestration entry points
(`delete_by_query`, `delete_by_date_criteria`, `delete_from_csv`).

The remote data client (`deleter/utils/hubspot_client.py`) ships outside
the sources, so it is modelled from the specification as a response
oracle with the classified error taxonomy of spec sections 6 and 7.
Loops of the source that may not terminate for an adversarial remote
store are given explicit fuel; exhausting the fuel is the embedding's
marker for an execution that never finishes.  Every enumeration or
deletion function additionally returns the trace of outbound network
requests it issued, in order.
-/

namespace Deleter

/-- Modelled from the spec: the classified remote errors raised by the
remote data client, whose module is absent from the sources; sections 6
and 7 of the spec give the taxonomy (transport, 4xx, 429, 409, 5xx). -/
inductive HubspotError where
  | transport
  | clientErr (statusCode : Nat)
  | rateLimit (retryAfter : Option Nat)
  | duplicateErr
  | serverErr (statusCode : Nat)
deriving DecidableEq, Repr

/-- How a modelled operation ends abnormally: a propagated classified
remote error, a `ValueError` usage rejection, or fuel exhaustion (the
embedding's marker for a loop that never finishes). -/
inductive Failure where
  | remote (e : HubspotError)
  | usage (msg : String)
  | outOfFuel
deriving DecidableEq, Repr

/-- Model of a Python string holding either a decimal numeral or free
text.  The source keeps numeric values (`str(threshold_id)`,
`str(utc_timestamp)`, record ids) as their decimal strings; the
embedding keeps the number itself. -/
inductive StrVal where
  | num (n : Int)
  | txt (s : String)
deriving DecidableEq, Repr

/-- Python truthiness of a cell value: a numeral string is non-empty
hence truthy, a text cell is truthy exactly when non-empty. -/
def StrVal.isTruthy : StrVal → Bool
  | .num _ => true
  | .txt s => s ≠ ""

/-- A record reference `{"id": ...}`; ids are numeric (the spec fixes
that their string form encodes the numeric ordering used for
resumption). -/
structure RecordRef where
  id : Nat
deriving DecidableEq, Repr

/-- One search predicate `{propertyName, operator, value?}`. -/
structure Filter where
  propertyName : String
  operator : String
  value : Option StrVal
deriving DecidableEq, Repr

/-- One sort clause of a search payload. -/
structure SortClause where
  propertyName : String
  direction : String
deriving DecidableEq, Repr

/-- The body of a search POST (`_create_search_payload`, plus the
`after` key that the pagination loop of `_process_search_batch` sets). -/
structure SearchPayload where
  filterGroups : List (List Filter)
  sorts : List SortClause
  limit : Nat
  after : Option Nat
deriving DecidableEq, Repr

/-- A search response: the result ids in order, the reported total, and
`paging.next.after`. -/
structure SearchPage where
  results : List Nat
  total : Nat
  nextAfter : Option Nat
deriving DecidableEq, Repr

/-- A listing response of `GET /crm/v3/objects/{object_type}`. -/
structure ListPage where
  results : List Nat
  nextAfter : Option Nat
deriving DecidableEq, Repr

/-- An outbound network call, as recorded by the embedding's traces. -/
inductive Request where
  | listObjects (category : String) (limit : Nat) (after : Option Nat)
  | search (category : String) (payload : SearchPayload)
  | batchArchive (category : String) (inputs : List RecordRef)
  | crmDelete (category : String) (id : Nat)
deriving DecidableEq, Repr

/-- Modelled from the spec: the remote search endpoint as a response
oracle; each POST either raises a classified error or yields a page. -/
def SearchStore : Type := SearchPayload → Except HubspotError SearchPage

/-- Modelled from the spec: the unfiltered listing endpoint as a
response oracle keyed by the opaque forward cursor. -/
def ListStore : Type := Option Nat → Except HubspotError ListPage

/-- Modelled from the spec: the deletion endpoints as oracles;
`batchArchive` is `POST .../batch/archive`, `crmDelete` is
`DELETE .../{id}`. -/
structure DeleteClient where
  batchArchive : List RecordRef → Except HubspotError Unit
  crmDelete : Nat → Except HubspotError Unit

/-- `_add_id_threshold_filter`: copy the base filters and append the
`hs_object_id GT threshold` predicate. -/
def addIdThresholdFilter (baseFilters : List Filter) (thresholdId : Nat) : List Filter :=
  baseFilters ++
    [{ propertyName := "hs_object_id", operator := "GT", value := some (.num thresholdId) }]

/-- `_create_search_payload`: one filter group, ascending id sort, no
cursor. -/
def createSearchPayload (filters : List Filter) (limit : Nat) : SearchPayload :=
  { filterGroups := [filters]
    sorts := [{ propertyName := "hs_object_id", direction := "ASCENDING" }]
    limit := limit
    after := none }

/-- Setting the `after` key on a stored request payload, as the
pagination loop does before re-posting it. -/
def withAfter (p : SearchPayload) (a : Option Nat) : SearchPayload :=
  { p with after := a }

/-- The `for record in results` loop of `_process_search_batch`: append
each result as a `RecordRef` and keep `last_id` as the id of the last
record appended. -/
def accumResults : List RecordRef → Nat → List Nat → List RecordRef × Nat
  | batch, lastId, [] => (batch, lastId)
  | batch, _, r :: rs => accumResults (batch ++ [⟨r⟩]) r rs

/-- The `while after` pagination loop of `_process_search_batch`: follow
the cursor with the same stored payload, stopping when the cursor is
absent or right after the accumulated batch reaches 10000 records.  A
classified error propagates (the enclosing `try` of `_search_records`
re-raises it).  Each trace entry also records how many records had
accumulated when that request went out. -/
def drainPages (category : String) (store : SearchStore) (payload : SearchPayload) :
    List RecordRef → Nat → Option Nat → Nat →
    Except Failure (List RecordRef × Nat) × List (Nat × Request)
  | batch, lastId, none, _ => (.ok (batch, lastId), [])
  | _, _, some _, 0 => (.error .outOfFuel, [])
  | batch, lastId, some a, fuel + 1 =>
    let req := Request.search category (withAfter payload (some a))
    match store (withAfter payload (some a)) with
    | .error e => (.error (.remote e), [(batch.length, req)])
    | .ok page =>
      let acc := accumResults batch lastId page.results
      if acc.1.length ≥ 10000 then
        (.ok acc, [(batch.length, req)])
      else
        let rest := drainPages category store payload acc.1 acc.2 page.nextAfter fuel
        (rest.1, (batch.length, req) :: rest.2)

/-- `_process_search_batch`: accumulate the initial page, then paginate
with the stored request payload. -/
def processSearchBatch (category : String) (store : SearchStore)
    (requestPayload : SearchPayload) (initialResponse : SearchPage) (pageFuel : Nat) :
    Except Failure (List RecordRef × Nat) × List (Nat × Request) :=
  let acc := accumResults [] 0 initialResponse.results
  drainPages category store requestPayload acc.1 acc.2 initialResponse.nextAfter pageFuel

/-- The `while True` leg loop of `_search_records`, with the running
accumulator and id threshold explicit.  One unit of `legFuel` is one
leg; a classified error anywhere aborts the whole search. -/
def searchLegs (category : String) (store : SearchStore) (filters : List Filter)
    (pageFuel : Nat) : List RecordRef → Nat → Nat →
    Except Failure (List RecordRef) × List Request
  | _, _, 0 => (.error .outOfFuel, [])
  | allRecords, lastRecordId, legFuel + 1 =>
    let searchPayload := createSearchPayload (addIdThresholdFilter filters lastRecordId) 200
    let req := Request.search category searchPayload
    match store searchPayload with
    | .error e => (.error (.remote e), [req])
    | .ok response =>
      if response.total = 0 then
        (.ok allRecords, [req])
      else
        let processed := processSearchBatch category store searchPayload response pageFuel
        match processed.1 with
        | .error f => (.error f, req :: processed.2.map Prod.snd)
        | .ok batch =>
          if response.total < 10000 then
            (.ok (allRecords ++ batch.1), req :: processed.2.map Prod.snd)
          else
            let rest :=
              searchLegs category store filters pageFuel (allRecords ++ batch.1) batch.2 legFuel
            (rest.1, req :: (processed.2.map Prod.snd ++ rest.2))

/-- `_search_records`: start at threshold 0 with nothing accumulated. -/
def searchRecords (category : String) (store : SearchStore) (filters : List Filter)
    (legFuel pageFuel : Nat) : Except Failure (List RecordRef) × List Request :=
  searchLegs category store filters pageFuel [] 0 legFuel

/-- The body of the `range(0, len(records), batch_size)` slicing of
`_delete_records`, recursing on a step counter: each step takes the next
chunk of up to 100 records and drops it.  A step always consumes at
least one record, so `records.length` steps reach the end. -/
def chunkLoop : Nat → List RecordRef → List (List RecordRef)
  | _, [] => []
  | 0, _ :: _ => []
  | steps + 1, r :: rs => ((r :: rs).take 100) :: chunkLoop steps ((r :: rs).drop 100)

/-- The `range(0, len(records), batch_size)` slicing of
`_delete_records`: consecutive chunks of 100, in order. -/
def chunkRecords (records : List RecordRef) : List (List RecordRef) :=
  chunkLoop records.length records

/-- The per-record fallback loop of `_delete_records`: one individual
`DELETE` per record of the failed chunk, counting each success; an
individual failure is only logged and skipped. -/
def deleteIndividually (category : String) (client : DeleteClient) :
    List RecordRef → Nat × List Request
  | [] => (0, [])
  | r :: rs =>
    let rest := deleteIndividually category client rs
    match client.crmDelete r.id with
    | .ok _ => (rest.1 + 1, Request.crmDelete category r.id :: rest.2)
    | .error _ => (rest.1, Request.crmDelete category r.id :: rest.2)

/-- The chunk loop of `_delete_records`: one bulk archive call per
chunk, falling back to individual deletes when the bulk call raises a
classified error. -/
def deleteChunks (category : String) (client : DeleteClient) :
    List (List RecordRef) → Nat × List Request
  | [] => (0, [])
  | chunk :: chunks =>
    let rest := deleteChunks category client chunks
    match client.batchArchive chunk with
    | .ok _ => (chunk.length + rest.1, Request.batchArchive category chunk :: rest.2)
    | .error _ =>
      let fallback := deleteIndividually category client chunk
      (fallback.1 + rest.1, Request.batchArchive category chunk :: (fallback.2 ++ rest.2))

/-- `_delete_records`: chunk, bulk-archive, fall back; never raises. -/
def deleteRecords (category : String) (client : DeleteClient) (records : List RecordRef) :
    Nat × List Request :=
  deleteChunks category client (chunkRecords records)

/-- `delete_by_query`: enumerate with the caller's predicates, then
delete the matches and return the confirmed count. -/
def deleteByQuery (category : String) (store : SearchStore) (client : DeleteClient)
    (query : List Filter) (legFuel pageFuel : Nat) : Except Failure Nat × List Request :=
  let found := searchRecords category store query legFuel pageFuel
  match found.1 with
  | .error f => (.error f, found.2)
  | .ok records =>
    let deleted := deleteRecords category client records
    (.ok deleted.1, found.2 ++ deleted.2)

/-- The `while True` walk of `_get_all_records_by_type`, inside its
single `try`: a classified remote error ends the walk and whatever was
collected so far is returned. -/
def listWalk (category : String) (store : ListStore) :
    List RecordRef → Option Nat → Nat → Except Failure (List RecordRef) × List Request
  | _, _, 0 => (.error .outOfFuel, [])
  | collected, after, fuel + 1 =>
    let req := Request.listObjects category 100 after
    match store after with
    | .error _ => (.ok collected, [req])
    | .ok page =>
      let collected' := collected ++ page.results.map RecordRef.mk
      match page.nextAfter with
      | none => (.ok collected', [req])
      | some a =>
        let rest := listWalk category store collected' (some a) fuel
        (rest.1, req :: rest.2)

/-- `_get_all_records_by_type`. -/
def getAllRecordsByType (category : String) (store : ListStore) (fuel : Nat) :
    Except Failure (List RecordRef) × List Request :=
  listWalk category store [] none fuel

/-- Model of a Python `datetime`: the wall-clock reading in epoch-style
milliseconds together with the `tzinfo` UTC offset in milliseconds
(`none` models a timezone-naive value). -/
structure PyDatetime where
  wallClockMs : Int
  tzOffsetMs : Option Int
deriving DecidableEq, Repr

/-- `_build_date_filter`: reject a naive timestamp with a `ValueError`,
otherwise emit the `GTE` predicate over UTC epoch milliseconds. -/
def buildDateFilter (propertyName : String) (timestamp : PyDatetime) :
    Except Failure Filter :=
  match timestamp.tzOffsetMs with
  | none => .error (.usage "Timestamp must include timezone information")
  | some offset =>
    .ok { propertyName := propertyName, operator := "GTE",
          value := some (.num (timestamp.wallClockMs - offset)) }

/-- `_get_records_by_date_criteria`: build the date predicates first
(possibly raising), return nothing when no criterion was supplied, and
only otherwise reach the search enumerator. -/
def getRecordsByDateCriteria (category : String) (store : SearchStore)
    (createdAfter modifiedAfter : Option PyDatetime) (legFuel pageFuel : Nat) :
    Except Failure (List RecordRef) × List Request :=
  match (match createdAfter with
         | none => Except.ok []
         | some ts => (buildDateFilter "createdate" ts).map fun f => [f]) with
  | .error f => (.error f, [])
  | .ok created =>
    match (match modifiedAfter with
           | none => Except.ok []
           | some ts => (buildDateFilter "lastmodifieddate" ts).map fun f => [f]) with
    | .error f => (.error f, [])
    | .ok modified =>
      let filters := created ++ modified
      if filters.isEmpty then (.ok [], [])
      else searchRecords category store filters legFuel pageFuel

/-- `_get_all_object_types`: the hardcoded list of standard types. -/
def getAllObjectTypes : List String :=
  ["contacts", "companies", "deals", "tickets", "notes", "emails", "tasks", "meetings", "calls"]

/-- `_get_custom_object_types`: the stub returning nothing. -/
def getCustomObjectTypes : List String := []

/-- The per-type loop of `delete_by_date_criteria`: enumerate by date
criteria, delete, and record the count per object type, in order. -/
def dateCriteriaLoop (store : SearchStore) (client : DeleteClient)
    (createdAfter modifiedAfter : Option PyDatetime) (legFuel pageFuel : Nat) :
    List String → Except Failure (List (String × Nat)) × List Request
  | [] => (.ok [], [])
  | t :: ts =>
    let found := getRecordsByDateCriteria t store createdAfter modifiedAfter legFuel pageFuel
    match found.1 with
    | .error f => (.error f, found.2)
    | .ok records =>
      let deleted := deleteRecords t client records
      let rest := dateCriteriaLoop store client createdAfter modifiedAfter legFuel pageFuel ts
      match rest.1 with
      | .error f => (.error f, found.2 ++ deleted.2 ++ rest.2)
      | .ok counts => (.ok ((t, deleted.1) :: counts), found.2 ++ deleted.2 ++ rest.2)

/-- `delete_by_date_criteria`: when no subset of object types is given,
process the full built-in list plus the (empty) custom-type discovery. -/
def deleteByDateCriteria (store : SearchStore) (client : DeleteClient)
    (createdAfter modifiedAfter : Option PyDatetime)
    (objectTypes : Option (List String)) (legFuel pageFuel : Nat) :
    Except Failure (List (String × Nat)) × List Request :=
  dateCriteriaLoop store client createdAfter modifiedAfter legFuel pageFuel
    (objectTypes.getD (getAllObjectTypes ++ getCustomObjectTypes))

/-- A parsed tabular source as `csv.DictReader` yields it: the header
and, per row, one cell per field. -/
structure CsvFile where
  fieldnames : List String
  rows : List (List (String × StrVal))
deriving DecidableEq, Repr

/-- Reading one cell of a row (a `DictReader` row carries a value for
every fieldname; a missing entry reads as the empty string). -/
def cellValue (row : List (String × StrVal)) (column : String) : StrVal :=
  (row.lookup column).getD (.txt "")

/-- The numeric id a truthy id cell denotes; record ids are numeral
strings, whose number the embedding keeps directly. -/
def cellId : StrVal → Nat
  | .num n => n.toNat
  | .txt _ => 0

/-- `delete_from_csv`: reject a missing id column with a `ValueError`,
keep every row whose id cell is truthy, and hand all of them to
`_delete_records` under the caller-supplied `object_type`. -/
def deleteFromCsv (objectType : String) (client : DeleteClient)
    (file : CsvFile) (idColumn : String) : Except Failure Nat × List Request :=
  if idColumn ∈ file.fieldnames then
    let records := file.rows.filterMap fun row =>
      let v := cellValue row idColumn
      if v.isTruthy then some (RecordRef.mk (cellId v)) else none
    let deleted := deleteRecords objectType client records
    (.ok deleted.1, deleted.2)
  else
    (.error (.usage "Column not found in CSV file"), [])

/-- The id threshold a search payload carries: the integer value of the
trailing `hs_object_id GT` predicate of its single filter group (the
engine always appends that predicate last). -/
def payloadThreshold (p : SearchPayload) : Nat :=
  match p.filterGroups with
  | [fs] =>
    match fs.getLast? with
    | some f =>
      match f.value with
      | some (.num i) => i.toNat
      | _ => 0
    | none => 0
  | _ => 0

/-- One response of the synthetic store of records `1..n` (spec section
8): the 200-wide window of the ids above the payload's threshold at the
cursor offset, the true matching total, and a next cursor exactly while
matching records remain beyond the window. -/
def synPage (n t off : Nat) : SearchPage :=
  { results := List.range' (t + 1 + off) (min 200 (n - t - off))
    total := n - t
    nextAfter := if off + 200 < n - t then some (off + 200) else none }

/-- The synthetic store of `n` records bearing ascending ids `1..n`. -/
def synStore (n : Nat) : SearchStore := fun p =>
  .ok (synPage n (payloadThreshold p) (p.after.getD 0))

/-- A store whose every search response reports a positive total
(10000) while carrying no results and no cursor: a leg against it
drains zero records. -/
def zeroDrainStore : SearchStore := fun _ =>
  .ok { results := [], total := 10000, nextAfter := none }

/-- A listing store serving fixed pages in cursor order `0, 1, 2, …`
and raising the given classified error on page `k`. -/
def seqListStoreFail (pages : List (List Nat)) (k : Nat) (e : HubspotError) : ListStore :=
  fun after =>
    let idx := after.getD 0
    if idx = k then .error e
    else .ok { results := pages.getD idx []
               nextAfter := if idx + 1 < pages.length then some (idx + 1) else none }

/-- A store that classifies every request as a transport failure. -/
def errStore : SearchStore := fun _ => .error .transport

/-- A deletion client on which every call succeeds. -/
def okClient : DeleteClient :=
  { batchArchive := fun _ => .ok ()
    crmDelete := fun _ => .ok () }

/-- The 250-record scenario of spec section 8: the bulk archive call
fails exactly for the chunk containing id 101 (the second hundred), and
an individual delete succeeds exactly for ids up to 180, so 80 of the
second chunk's 100 fallback deletes succeed. -/
def fallbackClient : DeleteClient :=
  { batchArchive := fun chunk =>
      if chunk.any (fun r => r.id = 101) then .error (.serverErr 500) else .ok ()
    crmDelete := fun i => if i ≤ 180 then .ok () else .error (.serverErr 500) }

/-- The 250 record references `1..250` of the same scenario. -/
def records250 : List RecordRef := (List.range' 1 250).map RecordRef.mk

/-- Whether a remote call succeeded. -/
def callOk {α : Type} : Except HubspotError α → Bool
  | .ok _ => true
  | .error _ => false

/-- Stated from the spec (section 4.3), for comparison with the source
embedding: the confirmed count is, chunk of 100 by chunk of 100, the
full chunk size when the bulk archive succeeds, and otherwise the
number of chunk records whose individual delete succeeds. -/
def specConfirmedCount (client : DeleteClient) (records : List RecordRef) : Nat :=
  ((chunkRecords records).map fun chunk =>
    match client.batchArchive chunk with
    | .ok _ => chunk.length
    | .error _ => (chunk.filter fun r => callOk (client.crmDelete r.id)).length).sum

/-- The record category an outbound request addresses. -/
def requestCategory : Request → String
  | .listObjects c _ _ => c
  | .search c _ => c
  | .batchArchive c _ => c
  | .crmDelete c _ => c

/-- A concrete tabular source: one row whose id cell is `1` and whose
`object_type` cell says `companies`. -/
def csvCompanies : CsvFile :=
  { fieldnames := ["hubspot_id", "object_type"]
    rows := [[("hubspot_id", .num 1), ("object_type", .txt "companies")]] }

theorem recordRef_mk_injective : Function.Injective RecordRef.mk := by
  intro a b h
  exact congrArg RecordRef.id h

theorem accumResults_eq (rs : List Nat) :
    ∀ (b : List RecordRef) (l : Nat),
      accumResults b l rs = (b ++ rs.map RecordRef.mk, rs.getLast?.getD l) := by
  induction rs with
  | nil => intro b l; simp [accumResults]
  | cons r rs ih =>
    intro b l
    rw [accumResults, ih]
    cases rs with
    | nil => simp [accumResults]
    | cons x xs => simp [List.getLast?_eq_getLast (x :: xs) (by simp)]

theorem withAfter_after (p : SearchPayload) (a : Option Nat) : (withAfter p a).after = a := rfl

theorem withAfter_create_none (fs : List Filter) (l : Nat) :
    withAfter (createSearchPayload fs l) none = createSearchPayload fs l := rfl

theorem payloadThreshold_withAfter (p : SearchPayload) (a : Option Nat) :
    payloadThreshold (withAfter p a) = payloadThreshold p := rfl

theorem payloadThreshold_create (base : List Filter) (t : Nat) :
    payloadThreshold (createSearchPayload (addIdThresholdFilter base t) 200) = t := by
  simp [payloadThreshold, createSearchPayload, addIdThresholdFilter]

theorem synStore_withAfter (n : Nat) (p : SearchPayload) (a : Nat) :
    synStore n (withAfter p (some a)) = .ok (synPage n (payloadThreshold p) a) := rfl

theorem synStore_create (n : Nat) (base : List Filter) (t : Nat) :
    synStore n (createSearchPayload (addIdThresholdFilter base t) 200) = .ok (synPage n t 0) := by
  show Except.ok (synPage n (payloadThreshold (createSearchPayload (addIdThresholdFilter base t) 200)) _) = _
  rw [payloadThreshold_create]
  rfl

theorem synDrain (n : Nat) (cat : String) (payload : SearchPayload) (t : Nat)
    (hp : payloadThreshold payload = t) :
    ∀ (pf : Nat), ∀ (off : Nat), off % 200 = 0 → off < n - t → off < 10000 →
      min (n - t) 10000 - off ≤ pf →
      (drainPages cat (synStore n) payload ((List.range' (t + 1) off).map RecordRef.mk)
        (t + off) (some off) pf).1
        = .ok ((List.range' (t + 1) (min (n - t) 10000)).map RecordRef.mk,
               t + min (n - t) 10000) := by
  intro pf
  induction pf with
  | zero => intro off h200 hlt hcap hfuel; exact absurd hfuel (by omega)
  | succ pf ih =>
    intro off h200 hlt hcap hfuel
    have hsyn : synStore n (withAfter payload (some off)) = .ok (synPage n t off) := by
      rw [← hp]; exact synStore_withAfter n payload off
    rw [drainPages, hsyn]
    simp only [synPage, accumResults_eq, List.getLast?_range']
    rw [if_neg (show ¬ min 200 (n - t - off) = 0 by omega)]
    simp only [Option.getD_some, ← List.map_append, List.range'_append_1,
      List.length_map, List.length_range', ge_iff_le]
    by_cases hge : 10000 ≤ min 200 (n - t - off) + off
    · rw [if_pos hge]
      have h1 : min 200 (n - t - off) + off = 10000 := by omega
      have h3 : t + 1 + off + min 200 (n - t - off) - 1 = t + 10000 := by omega
      have h2 : min (n - t) 10000 = 10000 := by omega
      rw [h1, h3, h2]
    · rw [if_neg hge]
      by_cases hnext : off + 200 < n - t
      · rw [if_pos hnext]
        have hc200 : min 200 (n - t - off) = 200 := by omega
        rw [hc200]
        rw [show t + 1 + off + 200 - 1 = t + (off + 200) by omega]
        rw [show (200 : Nat) + off = off + 200 by omega]
        exact ih (off + 200) (by omega) (by omega) (by omega) (by omega)
      · rw [if_neg hnext]
        have h1 : min 200 (n - t - off) + off = n - t := by omega
        have h3 : t + 1 + off + min 200 (n - t - off) - 1 = t + (n - t) := by omega
        rw [h1, h3]
        have h2 : min (n - t) 10000 = n - t := by omega
        rw [h2, drainPages]

theorem synLegs (n : Nat) (cat : String) (base : List Filter) :
    ∀ (lf : Nat) (t : Nat) (acc : List RecordRef), n - t + 1 ≤ lf →
      (searchLegs cat (synStore n) base 10000 acc t lf).1
        = .ok (acc ++ (List.range' (t + 1) (n - t)).map RecordRef.mk) := by
  intro lf
  induction lf with
  | zero => intro t acc h; exact absurd h (by omega)
  | succ lf ih =>
    intro t acc h
    rw [searchLegs]
    simp only [synStore_create, synPage, Nat.add_zero, Nat.sub_zero, Nat.zero_add]
    by_cases h0 : n - t = 0
    · rw [if_pos h0]
      simp [h0]
    · rw [if_neg h0]
      simp only [processSearchBatch, accumResults_eq, List.nil_append,
        List.getLast?_range']
      rw [if_neg (show ¬ min 200 (n - t) = 0 by omega)]
      simp only [Option.getD_some]
      by_cases hbig : 200 < n - t
      · rw [if_pos hbig]
        rw [show min 200 (n - t) = 200 by omega]
        rw [show t + 1 + 200 - 1 = t + 200 by omega]
        have hdp := synDrain n cat (createSearchPayload (addIdThresholdFilter base t) 200) t
          (payloadThreshold_create base t) 10000 200 (by omega) (by omega) (by omega) (by omega)
        simp only [hdp]
        by_cases hsmall : n - t < 10000
        · rw [if_pos hsmall]
          rw [show min (n - t) 10000 = n - t by omega]
        · rw [if_neg hsmall]
          rw [show min (n - t) 10000 = 10000 by omega]
          have hrec := ih (t + 10000) (acc ++ (List.range' (t + 1) 10000).map RecordRef.mk)
            (by omega)
          rw [hrec, List.append_assoc]
          congr 2
          rw [← List.map_append, show t + 10000 + 1 = t + 1 + 10000 by omega,
            List.range'_append_1, show n - (t + 10000) + 10000 = n - t by omega]
      · rw [if_neg hbig]
        simp only [drainPages]
        rw [if_pos (show n - t < 10000 by omega)]
        rw [show min 200 (n - t) = n - t by omega]

/-- C1: for every synthetic store of `n` records bearing ascending ids
`1..n` (any `n`, including `0` and values beyond `LEG_CAP = 10000`), the
filtered search enumerator `_search_records` returns exactly the ids
`1..n`, in order, each exactly once — so no record is handed to the
deleter more than once across leg boundaries. -/
theorem search_completeness_synthetic (n : Nat) (cat : String) (base : List Filter) :
    (searchRecords cat (synStore n) base (n + 1) 10000).1
      = .ok ((List.range' 1 n).map RecordRef.mk)
    ∧ ((List.range' 1 n).map RecordRef.mk).Nodup := by
  constructor
  · have h := synLegs n cat base (n + 1) 0 [] (by omega)
    simpa [searchRecords] using h
  · exact (List.nodup_range' 1 n).map recordRef_mk_injective

theorem searchLegs_zeroDrain (cat : String) (base : List Filter) (pf : Nat) :
    ∀ (lf : Nat) (acc : List RecordRef) (t : Nat),
      (searchLegs cat zeroDrainStore base pf acc t lf).1 = .error .outOfFuel := by
  intro lf
  induction lf with
  | zero => intro acc t; rfl
  | succ lf ih =>
    intro acc t
    rw [searchLegs]
    simp only [zeroDrainStore, processSearchBatch, accumResults, drainPages]
    rw [if_neg (show ¬(10000 = 0) by omega)]
    rw [if_neg (show ¬(10000 < 10000) by omega)]
    exact ih (acc ++ []) 0

/-- C2 (behaviour at the failing input): against a store whose every
search response reports total 10000 while draining zero records,
`_search_records` raises no internal-consistency error and never
terminates — for every fuel bound it is still looping, with the
threshold stuck at its old value, where the spec demands a raise. -/
theorem search_zero_drain_spins (cat : String) (base : List Filter) (legFuel pageFuel : Nat) :
    (searchRecords cat zeroDrainStore base legFuel pageFuel).1 = .error .outOfFuel :=
  searchLegs_zeroDrain cat base pageFuel legFuel [] 0

theorem deleteIndividually_count (cat : String) (client : DeleteClient) :
    ∀ rs : List RecordRef, (deleteIndividually cat client rs).1
      = (rs.filter fun r => callOk (client.crmDelete r.id)).length := by
  intro rs
  induction rs with
  | nil => rfl
  | cons r rs ih =>
    rw [deleteIndividually]
    cases hcd : client.crmDelete r.id with
    | ok u => simp [List.filter_cons, hcd, callOk, ih]
    | error e => simp [List.filter_cons, hcd, callOk, ih]

theorem deleteChunks_sum (cat : String) (client : DeleteClient) :
    ∀ cs : List (List RecordRef), (deleteChunks cat client cs).1
      = (cs.map fun chunk =>
          match client.batchArchive chunk with
          | .ok _ => chunk.length
          | .error _ => (chunk.filter fun r => callOk (client.crmDelete r.id)).length).sum := by
  intro cs
  induction cs with
  | nil => rfl
  | cons chunk chunks ih =>
    rw [deleteChunks]
    cases hb : client.batchArchive chunk with
    | ok u => simp [hb, ih]
    | error e => simp [hb, ih, deleteIndividually_count]

/-- C3: `_delete_records` partitions its input into chunks of 100 and
confirms, per chunk, the full chunk size when the bulk archive call
succeeds and otherwise exactly the individually-successful records of
that chunk, so one record's failure never aborts the rest; in the
250-record scenario with the second chunk's bulk call failing and 80 of
its 100 fallback deletes succeeding, the count is 230. -/
theorem delete_records_fallback_accounting :
    (∀ (cat : String) (client : DeleteClient) (records : List RecordRef),
        (deleteRecords cat client records).1 = specConfirmedCount client records)
    ∧ (deleteRecords "contacts" fallbackClient records250).1 = 230 := by
  constructor
  · intro cat client records
    rw [deleteRecords, deleteChunks_sum, specConfirmedCount]
  · decide

theorem drainPages_req_shape (cat : String) (store : SearchStore) (payload : SearchPayload) :
    ∀ (pf : Nat) (batch : List RecordRef) (lastId : Nat) (after : Option Nat) (c : Nat)
      (q : Request), (c, q) ∈ (drainPages cat store payload batch lastId after pf).2 →
      ∃ a, q = Request.search cat (withAfter payload (some a)) := by
  intro pf
  induction pf with
  | zero =>
    intro batch lastId after c q hmem
    cases after <;> simp [drainPages] at hmem
  | succ pf ih =>
    intro batch lastId after c q hmem
    cases after with
    | none => simp [drainPages] at hmem
    | some a =>
      rw [drainPages] at hmem
      cases hs : store (withAfter payload (some a)) with
      | error e =>
        rw [hs] at hmem
        simp only [List.mem_singleton, Prod.mk.injEq] at hmem
        exact ⟨a, hmem.2⟩
      | ok page =>
        simp only [hs] at hmem
        by_cases hbig : (accumResults batch lastId page.results).1.length ≥ 10000
        · rw [if_pos hbig] at hmem
          simp only [List.mem_singleton, Prod.mk.injEq] at hmem
          exact ⟨a, hmem.2⟩
        · rw [if_neg hbig] at hmem
          simp only [List.mem_cons, Prod.mk.injEq] at hmem
          rcases hmem with ⟨_, hq⟩ | hmem
          · exact ⟨a, hq⟩
          · exact ih _ _ _ c q hmem

theorem drainPages_trace_below_cap (cat : String) (store : SearchStore)
    (payload : SearchPayload) :
    ∀ (pf : Nat) (batch : List RecordRef) (lastId : Nat) (after : Option Nat),
      batch.length < 10000 →
      ∀ (c : Nat) (q : Request),
        (c, q) ∈ (drainPages cat store payload batch lastId after pf).2 → c < 10000 := by
  intro pf
  induction pf with
  | zero =>
    intro batch lastId after hlen c q hmem
    cases after <;> simp [drainPages] at hmem
  | succ pf ih =>
    intro batch lastId after hlen c q hmem
    cases after with
    | none => simp [drainPages] at hmem
    | some a =>
      rw [drainPages] at hmem
      cases hs : store (withAfter payload (some a)) with
      | error e =>
        rw [hs] at hmem
        simp only [List.mem_singleton, Prod.mk.injEq] at hmem
        exact hmem.1 ▸ hlen
      | ok page =>
        simp only [hs] at hmem
        by_cases hbig : (accumResults batch lastId page.results).1.length ≥ 10000
        · rw [if_pos hbig] at hmem
          simp only [List.mem_singleton, Prod.mk.injEq] at hmem
          exact hmem.1 ▸ hlen
        · rw [if_neg hbig] at hmem
          simp only [List.mem_cons, Prod.mk.injEq] at hmem
          rcases hmem with ⟨hc, _⟩ | hmem
          · exact hc ▸ hlen
          · exact ih _ _ _ (by omega) c q hmem

/-- C4: within one leg, every pagination request of the drain loop of
`_process_search_batch` re-posts the leg's stored payload (same
predicates, only the cursor changed), and goes out only while fewer
than `LEG_CAP = 10000` records have accumulated — once 10000 records
have accumulated no further pagination request is issued, even if a
cursor remains.  The hypothesis says the initial page respects the
requested page size of 200. -/
theorem drain_requests_same_payload_below_cap (cat : String) (store : SearchStore)
    (payload : SearchPayload) (initialResponse : SearchPage) (pageFuel : Nat)
    (hinit : initialResponse.results.length ≤ 200) :
    ∀ (c : Nat) (q : Request),
      (c, q) ∈ (processSearchBatch cat store payload initialResponse pageFuel).2 →
      c < 10000 ∧ ∃ a, q = Request.search cat (withAfter payload (some a)) := by
  intro c q hmem
  rw [processSearchBatch] at hmem
  refine ⟨drainPages_trace_below_cap cat store payload pageFuel _ _ _ ?_ c q hmem,
    drainPages_req_shape cat store payload pageFuel _ _ _ c q hmem⟩
  rw [accumResults_eq]
  simp only [List.nil_append, List.length_map]
  omega

/-- Witness for C4: a concrete drain against the synthetic store of 500
records, entered after a full initial page of 200 with a live cursor;
the second pagination request goes out at 400 accumulated records and
carries the stored payload with only the cursor set. -/
theorem drain_requests_same_payload_below_cap_witness :
    (SearchPage.mk (List.range' 1 200) 500 (some 200)).results.length ≤ 200
    ∧ ((400, Request.search "contacts"
          (withAfter (createSearchPayload (addIdThresholdFilter [] 0) 200) (some 400)))
        ∈ (processSearchBatch "contacts" (synStore 500)
            (createSearchPayload (addIdThresholdFilter [] 0) 200)
            (SearchPage.mk (List.range' 1 200) 500 (some 200)) 10).2)
    ∧ (400 < 10000 ∧ ∃ a, Request.search "contacts"
          (withAfter (createSearchPayload (addIdThresholdFilter [] 0) 200) (some 400))
        = Request.search "contacts"
            (withAfter (createSearchPayload (addIdThresholdFilter [] 0) 200) (some a))) :=
  ⟨by decide, by decide,
    drain_requests_same_payload_below_cap "contacts" (synStore 500)
      (createSearchPayload (addIdThresholdFilter [] 0) 200)
      (SearchPage.mk (List.range' 1 200) 500 (some 200)) 10 (by decide) 400 _ (by decide)⟩

theorem drainPages_error_aborts (cat : String) (store : SearchStore) (payload : SearchPayload) :
    ∀ (pf : Nat) (batch : List RecordRef) (lastId : Nat) (after : Option Nat) (c : Nat)
      (p : SearchPayload) (e : HubspotError),
      (c, Request.search cat p) ∈ (drainPages cat store payload batch lastId after pf).2 →
      store p = .error e →
      (drainPages cat store payload batch lastId after pf).1 = .error (.remote e) := by
  intro pf
  induction pf with
  | zero =>
    intro batch lastId after c p e hmem herr
    cases after <;> simp [drainPages] at hmem
  | succ pf ih =>
    intro batch lastId after c p e hmem herr
    cases after with
    | none => simp [drainPages] at hmem
    | some a =>
      rw [drainPages] at hmem ⊢
      cases hs : store (withAfter payload (some a)) with
      | error e0 =>
        simp only [hs] at hmem ⊢
        simp only [List.mem_singleton, Prod.mk.injEq, Request.search.injEq, true_and] at hmem
        rw [hmem.2, hs] at herr
        injection herr with h
        rw [h]
      | ok page =>
        simp only [hs] at hmem ⊢
        by_cases hbig : (accumResults batch lastId page.results).1.length ≥ 10000
        · rw [if_pos hbig] at hmem ⊢
          simp only [List.mem_singleton, Prod.mk.injEq, Request.search.injEq, true_and] at hmem
          rw [hmem.2, hs] at herr
          exact absurd herr (by simp)
        · rw [if_neg hbig] at hmem ⊢
          simp only [List.mem_cons, Prod.mk.injEq, Request.search.injEq, true_and] at hmem
          rcases hmem with ⟨_, hp⟩ | hmem
          · rw [hp, hs] at herr; exact absurd herr (by simp)
          · exact ih _ _ _ c p e hmem herr

theorem processSearchBatch_error_aborts (cat : String) (store : SearchStore)
    (payload : SearchPayload) (response : SearchPage) (pf : Nat) (c : Nat)
    (p : SearchPayload) (e : HubspotError) :
    (c, Request.search cat p) ∈ (processSearchBatch cat store payload response pf).2 →
    store p = .error e →
    (processSearchBatch cat store payload response pf).1 = .error (.remote e) := by
  intro hmem herr
  rw [processSearchBatch] at hmem ⊢
  exact drainPages_error_aborts cat store payload pf _ _ _ c p e hmem herr

theorem searchLegs_error_aborts (cat : String) (store : SearchStore) (filters : List Filter)
    (pf : Nat) :
    ∀ (lf : Nat) (acc : List RecordRef) (t : Nat) (p : SearchPayload) (e : HubspotError),
      Request.search cat p ∈ (searchLegs cat store filters pf acc t lf).2 →
      store p = .error e →
      (searchLegs cat store filters pf acc t lf).1 = .error (.remote e) := by
  intro lf
  induction lf with
  | zero => intro acc t p e hmem herr; simp [searchLegs] at hmem
  | succ lf ih =>
    intro acc t p e hmem herr
    rw [searchLegs] at hmem ⊢
    cases hs : store (createSearchPayload (addIdThresholdFilter filters t) 200) with
    | error e0 =>
      simp only [hs] at hmem ⊢
      simp only [List.mem_singleton, Request.search.injEq, true_and] at hmem
      rw [hmem, hs] at herr
      injection herr with h
      rw [h]
    | ok response =>
      simp only [hs] at hmem ⊢
      by_cases h0 : response.total = 0
      · rw [if_pos h0] at hmem ⊢
        simp only [List.mem_singleton, Request.search.injEq, true_and] at hmem
        rw [hmem, hs] at herr
        exact absurd herr (by simp)
      · rw [if_neg h0] at hmem ⊢
        cases hproc : (processSearchBatch cat store
            (createSearchPayload (addIdThresholdFilter filters t) 200) response pf).1 with
        | error f =>
          simp only [hproc] at hmem ⊢
          simp only [List.mem_cons, List.mem_map, Request.search.injEq, true_and] at hmem
          rcases hmem with hp | ⟨⟨c, q⟩, hq, hsnd⟩
          · rw [hp, hs] at herr; exact absurd herr (by simp)
          · rw [show q = Request.search cat p from hsnd] at hq
            have habort := processSearchBatch_error_aborts cat store
              (createSearchPayload (addIdThresholdFilter filters t) 200) response pf c p e
              hq herr
            rw [hproc] at habort
            injection habort with h
            rw [h]
        | ok batch =>
          simp only [hproc] at hmem ⊢
          by_cases hsmall : response.total < 10000
          · rw [if_pos hsmall] at hmem ⊢
            simp only [List.mem_cons, List.mem_map, Request.search.injEq, true_and] at hmem
            rcases hmem with hp | ⟨⟨c, q⟩, hq, hsnd⟩
            · rw [hp, hs] at herr; exact absurd herr (by simp)
            · rw [show q = Request.search cat p from hsnd] at hq
              have habort := processSearchBatch_error_aborts cat store
                (createSearchPayload (addIdThresholdFilter filters t) 200) response pf c p e
                hq herr
              rw [hproc] at habort
              exact absurd habort (by simp)
          · rw [if_neg hsmall] at hmem ⊢
            simp only [List.mem_cons, List.mem_append, List.mem_map,
              Request.search.injEq, true_and] at hmem
            rcases hmem with hp | ⟨⟨c, q⟩, hq, hsnd⟩ | hmem
            · rw [hp, hs] at herr; exact absurd herr (by simp)
            · rw [show q = Request.search cat p from hsnd] at hq
              have habort := processSearchBatch_error_aborts cat store
                (createSearchPayload (addIdThresholdFilter filters t) 200) response pf c p e
                hq herr
              rw [hproc] at habort
              exact absurd habort (by simp)
            · exact ih _ _ p e hmem herr

/-- C8: if the remote store classifies any request of the filtered
search — a leg-opening request or an intra-leg pagination request — as
a remote error, the whole `_search_records` call aborts with exactly
that error propagated; no partial result is returned. -/
theorem search_error_propagates (cat : String) (store : SearchStore) (filters : List Filter)
    (legFuel pageFuel : Nat) (p : SearchPayload) (e : HubspotError)
    (hmem : Request.search cat p ∈ (searchRecords cat store filters legFuel pageFuel).2)
    (herr : store p = .error e) :
    (searchRecords cat store filters legFuel pageFuel).1 = .error (.remote e) :=
  searchLegs_error_aborts cat store filters pageFuel legFuel [] 0 p e hmem herr

/-- Witness for C8: a store that fails every call makes the very first
leg request abort the search with that transport error. -/
theorem search_error_propagates_witness :
    (Request.search "contacts" (createSearchPayload (addIdThresholdFilter [] 0) 200)
        ∈ (searchRecords "contacts" errStore [] 1 1).2)
    ∧ errStore (createSearchPayload (addIdThresholdFilter [] 0) 200) = .error .transport
    ∧ (searchRecords "contacts" errStore [] 1 1).1 = .error (.remote .transport) :=
  ⟨by decide, rfl,
    search_error_propagates "contacts" errStore [] 1 1
      (createSearchPayload (addIdThresholdFilter [] 0) 200) .transport (by decide) rfl⟩

theorem searchLegs_req_shape (cat : String) (store : SearchStore) (filters : List Filter)
    (pf : Nat) :
    ∀ (lf : Nat) (acc : List RecordRef) (t : Nat) (q : Request),
      q ∈ (searchLegs cat store filters pf acc t lf).2 →
      ∃ thr a, q = Request.search cat
        (withAfter (createSearchPayload (addIdThresholdFilter filters thr) 200) a) := by
  intro lf
  induction lf with
  | zero => intro acc t q hmem; simp [searchLegs] at hmem
  | succ lf ih =>
    intro acc t q hmem
    rw [searchLegs] at hmem
    cases hs : store (createSearchPayload (addIdThresholdFilter filters t) 200) with
    | error e0 =>
      simp only [hs, List.mem_singleton] at hmem
      exact ⟨t, none, by rw [hmem, withAfter_create_none]⟩
    | ok response =>
      simp only [hs] at hmem
      by_cases h0 : response.total = 0
      · rw [if_pos h0] at hmem
        simp only [List.mem_singleton] at hmem
        exact ⟨t, none, by rw [hmem, withAfter_create_none]⟩
      · rw [if_neg h0] at hmem
        cases hproc : (processSearchBatch cat store
            (createSearchPayload (addIdThresholdFilter filters t) 200) response pf).1 with
        | error f =>
          simp only [hproc, List.mem_cons, List.mem_map] at hmem
          rcases hmem with hq | ⟨⟨c, q'⟩, hq, hsnd⟩
          · exact ⟨t, none, by rw [hq, withAfter_create_none]⟩
          · obtain ⟨a, ha⟩ := drainPages_req_shape cat store
              (createSearchPayload (addIdThresholdFilter filters t) 200) pf _ _ _ c q' hq
            exact ⟨t, some a, by rw [← hsnd, ha]⟩
        | ok batch =>
          simp only [hproc] at hmem
          by_cases hsmall : response.total < 10000
          · rw [if_pos hsmall] at hmem
            simp only [List.mem_cons, List.mem_map] at hmem
            rcases hmem with hq | ⟨⟨c, q'⟩, hq, hsnd⟩
            · exact ⟨t, none, by rw [hq, withAfter_create_none]⟩
            · obtain ⟨a, ha⟩ := drainPages_req_shape cat store
                (createSearchPayload (addIdThresholdFilter filters t) 200) pf _ _ _ c q' hq
              exact ⟨t, some a, by rw [← hsnd, ha]⟩
          · rw [if_neg hsmall] at hmem
            simp only [List.mem_cons, List.mem_append, List.mem_map] at hmem
            rcases hmem with hq | ⟨⟨c, q'⟩, hq, hsnd⟩ | hmem
            · exact ⟨t, none, by rw [hq, withAfter_create_none]⟩
            · obtain ⟨a, ha⟩ := drainPages_req_shape cat store
                (createSearchPayload (addIdThresholdFilter filters t) 200) pf _ _ _ c q' hq
              exact ⟨t, some a, by rw [← hsnd, ha]⟩
            · exact ih _ _ q hmem

theorem deleteIndividually_req_shape (cat : String) (client : DeleteClient) :
    ∀ (rs : List RecordRef) (q : Request), q ∈ (deleteIndividually cat client rs).2 →
      ∃ i, q = Request.crmDelete cat i := by
  intro rs
  induction rs with
  | nil => intro q hmem; simp [deleteIndividually] at hmem
  | cons r rs ih =>
    intro q hmem
    rw [deleteIndividually] at hmem
    cases hcd : client.crmDelete r.id with
    | ok u =>
      simp only [hcd, List.mem_cons] at hmem
      rcases hmem with hq | hmem
      · exact ⟨r.id, hq⟩
      · exact ih q hmem
    | error e =>
      simp only [hcd, List.mem_cons] at hmem
      rcases hmem with hq | hmem
      · exact ⟨r.id, hq⟩
      · exact ih q hmem

theorem deleteChunks_req_shape (cat : String) (client : DeleteClient) :
    ∀ (cs : List (List RecordRef)) (q : Request), q ∈ (deleteChunks cat client cs).2 →
      (∃ ch, q = Request.batchArchive cat ch) ∨ ∃ i, q = Request.crmDelete cat i := by
  intro cs
  induction cs with
  | nil => intro q hmem; simp [deleteChunks] at hmem
  | cons chunk chunks ih =>
    intro q hmem
    rw [deleteChunks] at hmem
    cases hb : client.batchArchive chunk with
    | ok u =>
      simp only [hb, List.mem_cons] at hmem
      rcases hmem with hq | hmem
      · exact Or.inl ⟨chunk, hq⟩
      · exact ih q hmem
    | error e =>
      simp only [hb, List.mem_cons, List.mem_append] at hmem
      rcases hmem with hq | hmem | hmem
      · exact Or.inl ⟨chunk, hq⟩
      · exact Or.inr (deleteIndividually_req_shape cat client chunk q hmem)
      · exact ih q hmem

/-- C6: `delete_by_query` passes the caller's opaque predicate list
through verbatim: every search request it emits carries exactly the
caller's predicates followed by the engine's single id-threshold
predicate (with the fixed ascending-id sort and page size 200, plus at
most a cursor), and the returned value is the confirmed deletion count
of the enumerated records. -/
theorem delete_by_query_verbatim (cat : String) (store : SearchStore) (client : DeleteClient)
    (query : List Filter) (legFuel pageFuel : Nat) :
    (∀ p, Request.search cat p ∈ (deleteByQuery cat store client query legFuel pageFuel).2 →
      ∃ thr a, p = withAfter (createSearchPayload
        (query ++ [{ propertyName := "hs_object_id", operator := "GT",
                     value := some (.num thr) }]) 200) a)
    ∧ (deleteByQuery cat store client query legFuel pageFuel).1
        = (searchRecords cat store query legFuel pageFuel).1.map
            (fun records => (deleteRecords cat client records).1) := by
  constructor
  · intro p hmem
    rw [deleteByQuery] at hmem
    cases hf : (searchRecords cat store query legFuel pageFuel).1 with
    | error f =>
      simp only [hf] at hmem
      obtain ⟨thr, a, ha⟩ := searchLegs_req_shape cat store query pageFuel legFuel [] 0 _ hmem
      refine ⟨thr, a, ?_⟩
      injection ha with hcat hp
    | ok records =>
      simp only [hf, List.mem_append] at hmem
      rcases hmem with hmem | hmem
      · obtain ⟨thr, a, ha⟩ := searchLegs_req_shape cat store query pageFuel legFuel [] 0 _ hmem
        refine ⟨thr, a, ?_⟩
        injection ha with hcat hp
      · rcases deleteChunks_req_shape cat client _ _ hmem with ⟨ch, hq⟩ | ⟨i, hq⟩ <;>
          simp at hq
  · rw [deleteByQuery]
    cases hf : (searchRecords cat store query legFuel pageFuel).1 with
    | error f => simp [hf, Except.map]
    | ok records => simp [hf, Except.map, deleteRecords]

/-- Witness for C6: on the synthetic three-record store, the first leg
request of `delete_by_query` with an empty predicate list carries
exactly the id-threshold predicate, and the returned count is the
deleter's confirmed count for the enumeration. -/
theorem delete_by_query_verbatim_witness :
    (∃ thr a, createSearchPayload (addIdThresholdFilter [] 0) 200
        = withAfter (createSearchPayload
            ([] ++ [{ propertyName := "hs_object_id", operator := "GT",
                      value := some (.num thr) }]) 200) a)
    ∧ (deleteByQuery "contacts" (synStore 3) okClient [] 5 5).1
        = (searchRecords "contacts" (synStore 3) [] 5 5).1.map
            (fun records => (deleteRecords "contacts" okClient records).1) :=
  ⟨(delete_by_query_verbatim "contacts" (synStore 3) okClient [] 5 5).1
      (createSearchPayload (addIdThresholdFilter [] 0) 200) (by decide),
   (delete_by_query_verbatim "contacts" (synStore 3) okClient [] 5 5).2⟩

theorem listWalk_seqFail (cat : String) (pages : List (List Nat)) (k : Nat) (e : HubspotError)
    (hk : k < pages.length) :
    ∀ (fuel idx : Nat) (collected : List RecordRef) (a : Option Nat),
      a.getD 0 = idx → idx ≤ k → k - idx < fuel →
      (listWalk cat (seqListStoreFail pages k e) collected a fuel).1
        = .ok (collected ++ (((pages.take k).drop idx).flatten).map RecordRef.mk) := by
  intro fuel
  induction fuel with
  | zero => intro idx collected a ha hik hf; exact absurd hf (by omega)
  | succ fuel ih =>
    intro idx collected a ha hik hf
    rw [listWalk]
    by_cases heq : idx = k
    · have hs : seqListStoreFail pages k e a = .error e := by
        simp [seqListStoreFail, ha, heq]
      simp only [hs]
      have hdrop : (List.take k pages).drop idx = [] :=
        List.drop_eq_nil_of_le (by simp [List.length_take]; omega)
      rw [hdrop]
      simp
    · have hii : idx < pages.length := by omega
      have hs : seqListStoreFail pages k e a
          = .ok (ListPage.mk (pages.getD idx []) (some (idx + 1))) := by
        simp only [seqListStoreFail, ha]
        rw [if_neg (by omega), if_pos (by omega)]
      simp only [hs]
      have hrec := ih (idx + 1) (collected ++ (pages.getD idx []).map RecordRef.mk)
        (some (idx + 1)) rfl (by omega) (by omega)
      rw [hrec]
      have hgd : pages.getD idx [] = pages[idx] := by
        rw [List.getD_eq_getElem?_getD, List.getElem?_eq_getElem hii, Option.getD_some]
      have htk : idx < (pages.take k).length := by simp [List.length_take]; omega
      have hdrop : (List.take k pages).drop idx
          = pages.getD idx [] :: (List.take k pages).drop (idx + 1) := by
        rw [List.drop_eq_getElem_cons htk]
        congr 1
        have h1 : (pages.take k)[idx]? = pages[idx]? := List.getElem?_take_of_lt (by omega)
        rw [List.getElem?_eq_getElem hii, List.getElem?_eq_getElem htk] at h1
        rw [hgd]
        exact Option.some.inj h1
      rw [hdrop]
      simp [List.append_assoc]

/-- C7: if the remote store classifies a request of the unfiltered list
walk as a remote error mid-walk, `_get_all_records_by_type` aborts
without raising and returns exactly the record references collected
from the pages before the error. -/
theorem list_walk_partial_on_error (cat : String) (pages : List (List Nat)) (k : Nat)
    (e : HubspotError) (hk : k < pages.length) :
    (getAllRecordsByType cat (seqListStoreFail pages k e) (pages.length + 1)).1
      = .ok (((pages.take k).flatten).map RecordRef.mk) := by
  have h := listWalk_seqFail cat pages k e hk (pages.length + 1) 0 [] none rfl (by omega)
    (by omega)
  simpa [getAllRecordsByType] using h

/-- Witness for C7: three pages with an error injected on the third;
the walk returns the two pages collected before the error, without
raising. -/
theorem list_walk_partial_on_error_witness :
    2 < ([[1, 2], [3], [4, 5]] : List (List Nat)).length
    ∧ (getAllRecordsByType "contacts" (seqListStoreFail [[1, 2], [3], [4, 5]] 2 .transport)
        (([[1, 2], [3], [4, 5]] : List (List Nat)).length + 1)).1 = .ok [⟨1⟩, ⟨2⟩, ⟨3⟩] :=
  ⟨by decide, by
    rw [list_walk_partial_on_error "contacts" [[1, 2], [3], [4, 5]] 2 HubspotError.transport
      (by decide)]
    rfl⟩


/-- C5 (counterexample): a tabular source whose single row carries id 1
and an `object_type` cell saying `companies`, submitted with caller
category `contacts`, produces exactly one bulk-archive call — under
`contacts`; the row is not deleted under its own category, contrary to
the claim. -/
theorem delete_from_csv_row_category_counterexample :
    (deleteFromCsv "contacts" okClient csvCompanies "hubspot_id").2
      = [Request.batchArchive "contacts" [⟨1⟩]]
    ∧ ("contacts" : String) ≠ "companies" :=
  ⟨by decide, by decide⟩

/-- C5 (amended): `delete_from_csv` ignores any category column of the
tabular source: with a valid id column it deletes exactly the rows
whose id cell is truthy, all under the caller-supplied category —
every outbound request it issues addresses that category. -/
theorem delete_from_csv_caller_category (cat : String) (client : DeleteClient)
    (file : CsvFile) (idColumn : String) (h : idColumn ∈ file.fieldnames) :
    (deleteFromCsv cat client file idColumn).1
      = .ok (deleteRecords cat client (file.rows.filterMap fun row =>
          if (cellValue row idColumn).isTruthy then
            some (RecordRef.mk (cellId (cellValue row idColumn))) else none)).1
    ∧ ∀ q ∈ (deleteFromCsv cat client file idColumn).2, requestCategory q = cat := by
  constructor
  · rw [deleteFromCsv, if_pos h]
  · intro q hq
    simp only [deleteFromCsv, if_pos h] at hq
    rcases deleteChunks_req_shape cat client _ q hq with ⟨ch, hqe⟩ | ⟨i, hqe⟩ <;>
      simp [hqe, requestCategory]

/-- Witness for the amended C5: the concrete one-row source with a
`companies` category cell; the bulk archive call goes out under the
caller's `contacts`. -/
theorem delete_from_csv_caller_category_witness :
    ("hubspot_id" ∈ csvCompanies.fieldnames)
    ∧ requestCategory (Request.batchArchive "contacts" [⟨1⟩]) = "contacts" :=
  ⟨by decide,
    (delete_from_csv_caller_category "contacts" okClient csvCompanies "hubspot_id"
      (by decide)).2 (Request.batchArchive "contacts" [⟨1⟩]) (by decide)⟩

/-- C9 (counterexample): a date-range call whose created-after
timestamp is timezone-naive but whose object-type subset is the empty
list returns an empty outcome map with no network call and no usage
error raised — the rejection the claim promises does not happen. -/
theorem date_naive_empty_types_counterexample :
    deleteByDateCriteria errStore okClient (some (PyDatetime.mk 0 none)) none
      (some []) 1 1 = (.ok [], []) := rfl

/-- C9 (amended): whenever at least one object type is processed (the
default full list, or any non-empty subset), a timezone-naive
timestamp among the supplied criteria makes `delete_by_date_criteria`
raise the usage error before any network request is issued; the trace
is empty. -/
theorem date_naive_rejected_before_network (store : SearchStore) (client : DeleteClient)
    (createdAfter modifiedAfter : Option PyDatetime) (objectTypes : Option (List String))
    (legFuel pageFuel : Nat)
    (htypes : objectTypes.getD (getAllObjectTypes ++ getCustomObjectTypes) ≠ [])
    (hnaive : (∃ ts, createdAfter = some ts ∧ ts.tzOffsetMs = none)
        ∨ ((∀ ts, createdAfter = some ts → ts.tzOffsetMs ≠ none)
           ∧ ∃ ts, modifiedAfter = some ts ∧ ts.tzOffsetMs = none)) :
    deleteByDateCriteria store client createdAfter modifiedAfter objectTypes legFuel pageFuel
      = (.error (.usage "Timestamp must include timezone information"), []) := by
  rw [deleteByDateCriteria]
  cases hty : objectTypes.getD (getAllObjectTypes ++ getCustomObjectTypes) with
  | nil => exact absurd hty htypes
  | cons t ts =>
    rw [dateCriteriaLoop]
    have hfound : getRecordsByDateCriteria t store createdAfter modifiedAfter legFuel pageFuel
        = (.error (.usage "Timestamp must include timezone information"), []) := by
      rw [getRecordsByDateCriteria.eq_def]
      rcases hnaive with ⟨ts0, hca, htz⟩ | ⟨hcaOK, ts0, hma, htz⟩
      · rw [hca]
        simp [buildDateFilter, htz, Except.map]
      · cases hca : createdAfter with
        | none =>
          rw [hma]
          simp [buildDateFilter, htz, Except.map]
        | some ts1 =>
          obtain ⟨off, hoff⟩ := Option.ne_none_iff_exists'.mp (hcaOK ts1 hca)
          rw [hma]
          simp [buildDateFilter, hoff, htz, Except.map]
    simp [hfound]

/-- Witness for the amended C9: the default object-type subset with a
naive created-after timestamp is rejected with the usage error and an
empty request trace. -/
theorem date_naive_rejected_before_network_witness :
    ((none : Option (List String)).getD (getAllObjectTypes ++ getCustomObjectTypes) ≠ [])
    ∧ deleteByDateCriteria errStore okClient (some (PyDatetime.mk 0 none)) none none 1 1
        = (.error (.usage "Timestamp must include timezone information"), []) :=
  ⟨by decide, date_naive_rejected_before_network errStore okClient
      (some (PyDatetime.mk 0 none)) none none 1 1 (by decide)
      (Or.inl ⟨PyDatetime.mk 0 none, rfl, rfl⟩)⟩

theorem dateCriteriaLoop_none_none (store : SearchStore) (client : DeleteClient)
    (legFuel pageFuel : Nat) :
    ∀ ts : List String, dateCriteriaLoop store client none none legFuel pageFuel ts
      = (.ok (ts.map fun t => (t, 0)), []) := by
  intro ts
  induction ts with
  | nil => rfl
  | cons t ts ih =>
    rw [dateCriteriaLoop]
    have h1 : getRecordsByDateCriteria t store none none legFuel pageFuel
        = (.ok [], []) := rfl
    have h2 : deleteRecords t client [] = (0, []) := rfl
    simp [h1, h2, ih]

/-- C10: with neither a created-after nor a modified-after criterion,
`delete_by_date_criteria` performs no network call at all — neither
search nor delete — and returns an outcome map assigning 0 to every
processed object type, in order. -/
theorem date_no_criteria_no_calls (store : SearchStore) (client : DeleteClient)
    (objectTypes : Option (List String)) (legFuel pageFuel : Nat) :
    deleteByDateCriteria store client none none objectTypes legFuel pageFuel
      = (.ok ((objectTypes.getD (getAllObjectTypes ++ getCustomObjectTypes)).map
          fun t => (t, 0)), []) := by
  rw [deleteByDateCriteria]
  exact dateCriteriaLoop_none_none store client legFuel pageFuel _

end Deleter
